import Mathlib

/-!
Verification of the shelfshare books-api listing/CRUD layer.

The definitions below are a shallow embedding of the Go code in
apps/books-api (handlers in internal/handler, repository in
internal/repository, date codec in internal/model/date.go), together with
a small number of definitions modelled from the specification where the
corresponding repository code is not part of the source tree (the
parameterised repository List implementation and the Postgres
foreign-key failure behaviour).  Machine integers are modelled as Int,
Go slices as List, and fallible operations as Option/Except.
-/

namespace Shelfshare

/-! ### Go standard-library primitives -/

/-- Numeric value of an ASCII decimal digit character. -/
def digitVal (c : Char) : Nat := c.toNat - 48

/-- Model of Go strconv.Atoi: an optional single leading sign followed by
one or more decimal digits, with the result required to fit in int64.
Anything else is an error (modelled as none). -/
def goAtoi (s : String) : Option Int :=
  match s.data with
  | [] => none
  | c :: rest =>
    let signed : Bool × List Char :=
      if c = '-' then (true, rest)
      else if c = '+' then (false, rest)
      else (false, c :: rest)
    let digits := signed.2
    if digits = [] then none
    else if digits.all Char.isDigit then
      let n : Nat := digits.foldl (fun acc d => acc * 10 + digitVal d) 0
      let v : Int := if signed.1 then -(n : Int) else (n : Int)
      if v < -(2 ^ 63) ∨ v > 2 ^ 63 - 1 then none else some v
    else none

/-- Value of a hexadecimal digit character, as in the xvalues table of
github.com/google/uuid. -/
def hexVal (c : Char) : Option Nat :=
  if '0' ≤ c ∧ c ≤ '9' then some (c.toNat - 48)
  else if 'a' ≤ c ∧ c ≤ 'f' then some (c.toNat - 87)
  else if 'A' ≤ c ∧ c ≤ 'F' then some (c.toNat - 55)
  else none

/-- Model of the xtob helper of github.com/google/uuid: two hex digits to
one byte. -/
def xtob (c1 c2 : Char) : Option Nat := do
  let h ← hexVal c1
  let l ← hexVal c2
  pure (h * 16 + l)

/-- Consecutive hex-digit pairs decoded to bytes; fails on a non-hex
character or an odd number of characters. -/
def hexBytes : List Char → Option (List Nat)
  | [] => some []
  | [_] => none
  | c1 :: c2 :: rest => do
    let b ← xtob c1 c2
    let bs ← hexBytes rest
    pure (b :: bs)

/-- ASCII-lowercased character, for case-insensitive comparisons. -/
def asciiLower (c : Char) : Char :=
  if 'A' ≤ c ∧ c ≤ 'Z' then Char.ofNat (c.toNat + 32) else c

/-- Case-insensitive (ASCII fold) equality of character lists, modelling
strings.EqualFold on the ASCII inputs it is applied to here. -/
def eqFold : List Char → List Char → Bool
  | [], [] => true
  | a :: as, b :: bs => asciiLower a = asciiLower b && eqFold as bs
  | _, _ => false

/-- A UUID value: the 16 decoded bytes. -/
abbrev UUIDv : Type := List Nat

/-- Hyphenated 36-character UUID body as accepted by uuid.Parse: hyphens
at positions 8, 13, 18 and 23 and hex-digit pairs everywhere else.  Only
the first 36 characters are inspected, exactly like the Go code, which
for the braced form never examines the trailing character. -/
def uuidParse36 (cs : List Char) : Option UUIDv :=
  if cs.get? 8 = some '-' ∧ cs.get? 13 = some '-' ∧
     cs.get? 18 = some '-' ∧ cs.get? 23 = some '-' then do
    let b1 ← hexBytes (cs.take 8)
    let b2 ← hexBytes ((cs.drop 9).take 4)
    let b3 ← hexBytes ((cs.drop 14).take 4)
    let b4 ← hexBytes ((cs.drop 19).take 4)
    let b5 ← hexBytes ((cs.drop 24).take 12)
    pure (b1 ++ b2 ++ b3 ++ b4 ++ b5)
  else none

/-- Model of uuid.Parse from github.com/google/uuid: accepts the plain
36-character form, the urn:uuid: prefixed form, the braced form (whose
first character is skipped and never validated, as in the Go source) and
the bare 32-hex-digit form; every other length is an error. -/
def uuidParse (s : String) : Option UUIDv :=
  let cs := s.data
  if cs.length = 36 then uuidParse36 cs
  else if cs.length = 45 then
    if eqFold (cs.take 9) ("urn:uuid:".data) then uuidParse36 (cs.drop 9)
    else none
  else if cs.length = 38 then uuidParse36 (cs.drop 1)
  else if cs.length = 32 then hexBytes cs
  else none

/-! ### Go time values -/

/-- Wall-clock components of a Go time.Time as produced by time.Parse:
calendar date, time of day, nanoseconds, and the zone offset in seconds
east of UTC. -/
structure GoTime where
  year : Int
  month : Nat
  day : Nat
  hour : Nat
  minute : Nat
  second : Nat
  nano : Nat
  offset : Int
  deriving DecidableEq

/-- Midnight UTC on the given calendar date. -/
def mkDate (y : Int) (m d : Nat) : GoTime :=
  ⟨y, m, d, 0, 0, 0, 0, 0⟩

/-- Go zero time: January 1, year 1, 00:00:00 UTC. -/
def goTimeZero : GoTime := mkDate 1 1 1

/-- Gregorian leap-year rule, as in Go time.isLeap. -/
def isLeap (y : Int) : Bool :=
  y % 4 = 0 ∧ (y % 100 ≠ 0 ∨ y % 400 = 0)

/-- Number of days in the given month of the given year. -/
def daysInMonth (y : Int) (m : Nat) : Nat :=
  if m = 2 then (if isLeap y then 29 else 28)
  else if m = 4 ∨ m = 6 ∨ m = 9 ∨ m = 11 then 30
  else 31

/-- Cumulative days before the first of the given month. -/
def daysBeforeMonth (y : Int) (m : Nat) : Nat :=
  let feb : Nat := if isLeap y then 29 else 28
  match m with
  | 1 => 0
  | 2 => 31
  | 3 => 31 + feb
  | 4 => 62 + feb
  | 5 => 92 + feb
  | 6 => 123 + feb
  | 7 => 153 + feb
  | 8 => 184 + feb
  | 9 => 215 + feb
  | 10 => 245 + feb
  | 11 => 276 + feb
  | _ => 306 + feb

/-- Days elapsed from January 1 of year 1 to the given date (so the Go
zero time is day 0). -/
def daysFromYear1 (t : GoTime) : Int :=
  let y := t.year - 1
  365 * y + y.fdiv 4 - y.fdiv 100 + y.fdiv 400 +
    (daysBeforeMonth t.year t.month : Int) + (t.day : Int) - 1

/-- Absolute seconds of the instant relative to the Go zero instant
(wall clock minus the zone offset). -/
def timeAbsSec (t : GoTime) : Int :=
  daysFromYear1 t * 86400 + t.hour * 3600 + t.minute * 60 + t.second - t.offset

/-- Model of time.Time.IsZero: the instant is January 1, year 1,
00:00:00 UTC. -/
def goTimeIsZero (t : GoTime) : Bool :=
  timeAbsSec t = 0 ∧ t.nano = 0

/-- Instant-order comparison of two time values (absolute seconds, then
nanoseconds), as the database compares stored timestamps. -/
def timeLE (a b : GoTime) : Bool :=
  timeAbsSec a < timeAbsSec b ∨ (timeAbsSec a = timeAbsSec b ∧ a.nano ≤ b.nano)

/-! ### Go time.Parse for the layouts used by the books-api -/

/-- Exactly n decimal digits read into a number, returning the rest of
the input; models Go getnum with fixed width. -/
def readFixedNat : Nat → Nat → List Char → Option (Nat × List Char)
  | 0, acc, cs => some (acc, cs)
  | n + 1, acc, cs =>
    match cs with
    | c :: rest =>
      if c.isDigit then readFixedNat n (acc * 10 + digitVal c) rest else none
    | [] => none

/-- One or two decimal digits, as Go getnum with non-fixed width reads a
day number for the layout element 2. -/
def read1or2 (cs : List Char) : Option (Nat × List Char) :=
  match cs with
  | c1 :: rest =>
    if c1.isDigit then
      match rest with
      | c2 :: rest2 =>
        if c2.isDigit then some (digitVal c1 * 10 + digitVal c2, rest2)
        else some (digitVal c1, rest)
      | [] => some (digitVal c1, [])
    else none
  | [] => none

/-- A single required literal character. -/
def expectChar (c : Char) (cs : List Char) : Option (List Char) :=
  match cs with
  | c0 :: rest => if c0 = c then some rest else none
  | [] => none

/-- Month and day within calendar range, the check Go time.Parse performs
after reading all fields. -/
def validMD (y : Int) (m d : Nat) : Bool :=
  1 ≤ m ∧ m ≤ 12 ∧ 1 ≤ d ∧ d ≤ daysInMonth y m

/-- Layout 2006-01-02 (or with / as separator): four-digit year,
two-digit month, two-digit day, whole input consumed. -/
def parseLayoutYMD (sep : Char) (cs : List Char) : Option GoTime := do
  let (y, cs) ← readFixedNat 4 0 cs
  let cs ← expectChar sep cs
  let (m, cs) ← readFixedNat 2 0 cs
  let cs ← expectChar sep cs
  let (d, cs) ← readFixedNat 2 0 cs
  if cs = [] ∧ validMD (y : Int) m d then pure (mkDate (y : Int) m d) else none

/-- Layout 02-01-2006: two-digit day, two-digit month, four-digit year. -/
def parseLayoutDMY (cs : List Char) : Option GoTime := do
  let (d, cs) ← readFixedNat 2 0 cs
  let cs ← expectChar '-' cs
  let (m, cs) ← readFixedNat 2 0 cs
  let cs ← expectChar '-' cs
  let (y, cs) ← readFixedNat 4 0 cs
  if cs = [] ∧ validMD (y : Int) m d then pure (mkDate (y : Int) m d) else none

/-- Case-insensitive removal of a leading name, as the Go lookup/match
helpers match month names. -/
def matchNameFold : List Char → List Char → Option (List Char)
  | [], v => some v
  | p :: ps, v :: vs => if asciiLower p = asciiLower v then matchNameFold ps vs else none
  | _ :: _, [] => none

/-- First month name of the table matching a prefix of the input,
together with the rest of the input. -/
def lookupMonth : List (List Char × Nat) → List Char → Option (Nat × List Char)
  | [], _ => none
  | (name, m) :: rest, cs =>
    match matchNameFold name cs with
    | some cs' => some (m, cs')
    | none => lookupMonth rest cs

/-- Full month names with their numbers. -/
def longMonthNames : List (List Char × Nat) :=
  [("January".data, 1), ("February".data, 2), ("March".data, 3),
   ("April".data, 4), ("May".data, 5), ("June".data, 6),
   ("July".data, 7), ("August".data, 8), ("September".data, 9),
   ("October".data, 10), ("November".data, 11), ("December".data, 12)]

/-- Abbreviated month names with their numbers. -/
def shortMonthNames : List (List Char × Nat) :=
  [("Jan".data, 1), ("Feb".data, 2), ("Mar".data, 3), ("Apr".data, 4),
   ("May".data, 5), ("Jun".data, 6), ("Jul".data, 7), ("Aug".data, 8),
   ("Sep".data, 9), ("Oct".data, 10), ("Nov".data, 11), ("Dec".data, 12)]

/-- Layouts January 2, 2006 and Jan 2, 2006: month name, space, one- or
two-digit day, comma, space, four-digit year. -/
def parseLayoutMonthName (names : List (List Char × Nat)) (cs : List Char) :
    Option GoTime := do
  let (m, cs) ← lookupMonth names cs
  let cs ← expectChar ' ' cs
  let (d, cs) ← read1or2 cs
  let cs ← expectChar ',' cs
  let cs ← expectChar ' ' cs
  let (y, cs) ← readFixedNat 4 0 cs
  if cs = [] ∧ validMD (y : Int) m d then pure (mkDate (y : Int) m d) else none

/-- Optional fractional-second field: a period or comma followed by one
or more digits, scaled to nanoseconds (the first nine digits are
significant).  Absent field yields zero nanoseconds. -/
def parseFrac (cs : List Char) : Nat × List Char :=
  match cs with
  | c :: c1 :: rest =>
    if (c = '.' ∨ c = ',') ∧ c1.isDigit then
      let digits := (c1 :: rest).takeWhile Char.isDigit
      let rest' := (c1 :: rest).dropWhile Char.isDigit
      let sig := digits.take 9
      let v := sig.foldl (fun acc d => acc * 10 + digitVal d) 0
      (v * 10 ^ (9 - sig.length), rest')
    else (0, cs)
  | _ => (0, cs)

/-- Time-zone suffix of an RFC 3339 timestamp: the literal Z for UTC or a
signed hh:mm offset, returned in seconds east of UTC. -/
def parseZone (cs : List Char) : Option (Int × List Char) :=
  match cs with
  | 'Z' :: rest => some (0, rest)
  | c :: rest =>
    if c = '+' ∨ c = '-' then do
      let (h, rest) ← readFixedNat 2 0 rest
      let rest ← expectChar ':' rest
      let (m, rest) ← readFixedNat 2 0 rest
      let off : Int := (h : Int) * 3600 + (m : Int) * 60
      pure (if c = '-' then -off else off, rest)
    else none
  | [] => none

/-- Layout 2006-01-02T15:04:05Z07:00 (RFC 3339): date, literal T,
time of day, optional fractional seconds, zone suffix. -/
def parseLayoutRFC3339 (cs : List Char) : Option GoTime := do
  let (y, cs) ← readFixedNat 4 0 cs
  let cs ← expectChar '-' cs
  let (mo, cs) ← readFixedNat 2 0 cs
  let cs ← expectChar '-' cs
  let (d, cs) ← readFixedNat 2 0 cs
  let cs ← expectChar 'T' cs
  let (h, cs) ← readFixedNat 2 0 cs
  let cs ← expectChar ':' cs
  let (mi, cs) ← readFixedNat 2 0 cs
  let cs ← expectChar ':' cs
  let (sec, cs) ← readFixedNat 2 0 cs
  let fr := parseFrac cs
  let (off, cs) ← parseZone fr.2
  if cs = [] ∧ validMD (y : Int) mo d ∧ h ≤ 23 ∧ mi ≤ 59 ∧ sec ≤ 59 then
    pure ⟨(y : Int), mo, d, h, mi, sec, fr.1, off⟩
  else none

/-- Model of time.Parse with the fixed layout 2006-01-02, as used by the
parseDateQuery helper of the handler package. -/
def goParseDate (s : String) : Option GoTime :=
  parseLayoutYMD '-' s.data

/-- Model of model.Date.UnmarshalJSON applied to the decoded JSON string:
the empty string becomes the zero time, otherwise the six layouts of
dateLayouts are tried in order and the first success wins. -/
def dateUnmarshalString (s : String) : Option GoTime :=
  if s = "" then some goTimeZero
  else
    (parseLayoutYMD '-' s.data).orElse fun _ =>
    (parseLayoutDMY s.data).orElse fun _ =>
    (parseLayoutYMD '/' s.data).orElse fun _ =>
    (parseLayoutMonthName longMonthNames s.data).orElse fun _ =>
    (parseLayoutMonthName shortMonthNames s.data).orElse fun _ =>
    parseLayoutRFC3339 s.data

/-! ### Data model (internal/model/book.go) -/

/-- A stored Book row: identifier, title, owning author, description,
optional publication instant and the creation timestamp (absolute
seconds) used by the created_at sort keys. -/
structure Book where
  id : UUIDv
  title : String
  authorID : UUIDv
  description : String
  publishedAt : Option GoTime
  createdAt : Int
  deriving DecidableEq

/-! ### Query-string access (gin) -/

/-- A raw query-string parameter: none when the key is absent. -/
abbrev RawParam := Option String

/-- Model of gin Context.Query: the value, or the empty string when the
key is absent. -/
def cQuery (v : RawParam) : String := v.getD ""

/-- Model of gin Context.DefaultQuery: the default only when the key is
absent; a present-but-empty value is returned as is. -/
def cDefaultQuery (v : RawParam) (dflt : String) : String :=
  match v with
  | none => dflt
  | some s => s

/-- Raw query parameters of a listing request. -/
structure RawListQuery where
  page : RawParam := none
  pageSize : RawParam := none
  sort : RawParam := none
  q : RawParam := none
  authorID : RawParam := none
  pubAfter : RawParam := none
  pubBefore : RawParam := none

/-! ### Handler helpers (internal/handler, parseIntQuery / parseDateQuery) -/

/-- Embedding of handler.parseIntQuery: a non-empty value that Atoi
accepts is returned as parsed (whatever its sign); everything else
falls back to the default. -/
def parseIntQuery (raw : RawParam) (dflt : Int) : Int :=
  let s := cQuery raw
  if s ≠ "" then
    match goAtoi s with
    | some v => v
    | none => dflt
  else dflt

/-- Embedding of handler.parseDateQuery: an absent or empty value is no
bound; otherwise the value must parse under the fixed layout
2006-01-02 or the request errors. -/
def parseDateQuery (raw : RawParam) : Except Unit (Option GoTime) :=
  let s := cQuery raw
  if s = "" then .ok none
  else
    match goParseDate s with
    | some t => .ok (some t)
    | none => .error ()

/-- An HTTP error outcome: status code and machine-readable error code,
as produced by handler.writeError. -/
abbrev HError := Nat × String

instance {ε α : Type} [DecidableEq ε] [DecidableEq α] : DecidableEq (Except ε α) :=
  fun x y =>
    match x, y with
    | .error e, .error f =>
      if h : e = f then .isTrue (congrArg Except.error h)
      else .isFalse (fun hh => h (by cases hh; rfl))
    | .ok a, .ok b =>
      if h : a = b then .isTrue (congrArg Except.ok h)
      else .isFalse (fun hh => h (by cases hh; rfl))
    | .error _, .ok _ => .isFalse (fun hh => by cases hh)
    | .ok _, .error _ => .isFalse (fun hh => by cases hh)

/-- The validated list-query descriptor (repository.BookListParams). -/
structure BookListParams where
  page : Int
  pageSize : Int
  sort : String
  query : String
  authorID : Option UUIDv
  pubAfter : Option GoTime
  pubBefore : Option GoTime
  deriving DecidableEq

/-- Author-id step of BookHandler.ListBooks: a present, non-empty
author_id must be a valid UUID or the request fails with
INVALID_AUTHOR_ID. -/
def parseAuthor (raw : RawParam) : Except HError (Option UUIDv) :=
  let s := cQuery raw
  if s ≠ "" then
    match uuidParse s with
    | some id => .ok (some id)
    | none => .error (400, "INVALID_AUTHOR_ID")
  else .ok none

/-- Embedding of the query-parsing prefix of BookHandler.ListBooks
(book.go lines 118-167): page and page_size default substitution, the
100 cap on page_size, sort defaulting, free-text query, author-id
validation and the two date bounds, assembled into BookListParams.
An error return models writeError aborting the request before the
repository is consulted. -/
def listBooksParse (raw : RawListQuery) : Except HError BookListParams :=
  match parseAuthor raw.authorID with
  | .error e => .error e
  | .ok aid =>
    match parseDateQuery raw.pubAfter with
    | .error _ => .error (400, "INVALID_PUBLISHED_AFTER")
    | .ok pa =>
      match parseDateQuery raw.pubBefore with
      | .error _ => .error (400, "INVALID_PUBLISHED_BEFORE")
      | .ok pb =>
        let pageSize0 := parseIntQuery raw.pageSize 20
        .ok { page := parseIntQuery raw.page 1
              pageSize := if pageSize0 > 100 then 100 else pageSize0
              sort := cDefaultQuery raw.sort "created_at_desc"
              query := cQuery raw.q
              authorID := aid
              pubAfter := pa
              pubBefore := pb }

/-- Embedding of the total_pages computation of BookHandler.ListBooks
(book.go lines 183-186): Go integer division truncates toward zero,
modelled by Int.tdiv. -/
def computeTotalPages (pageSize total : Int) : Int :=
  if pageSize > 0 then (total + pageSize - 1).tdiv pageSize else 0

/-! ### Repository List (modelled from the spec) -/

/-- Case-insensitive substring match of the needle in the haystack,
modelling the free-text match of the listing query. -/
def containsCI (haystack needle : String) : Bool :=
  decide ((needle.data.map asciiLower).IsInfix (haystack.data.map asciiLower))

/-- Modelled from the spec: the filter predicate of the repository List
operation (spec 4.2), whose implementation is not part of the source
tree.  Zero or more conditions are combined with AND: case-insensitive
free-text match against title or description, exact author-id equality,
publish date at or after the lower bound, publish date at or before the
upper bound (rows without a publish date fail a present bound). -/
def bookMatches (p : BookListParams) (b : Book) : Bool :=
  (p.query = "" ∨ containsCI b.title p.query ∨ containsCI b.description p.query)
  && (match p.authorID with
      | none => true
      | some id => b.authorID = id)
  && (match p.pubAfter with
      | none => true
      | some lo => match b.publishedAt with
        | some d => timeLE lo d
        | none => false)
  && (match p.pubBefore with
      | none => true
      | some hi => match b.publishedAt with
        | some d => timeLE d hi
        | none => false)

/-- Total order used for one sort key: strictly smaller key, or equal
key and tie broken by the secondary key (the insertion index), keeping
pagination deterministic as the spec requires. -/
def keyIdxLE {κ : Type} [LinearOrder κ] (keyOf : Book → κ) (a b : Nat × Book) : Bool :=
  decide (keyOf a.2 < keyOf b.2) ||
    (decide (keyOf a.2 = keyOf b.2) && decide (a.1 ≤ b.1))

/-- Sort key of a title: its character code points, ordered
lexicographically. -/
def bookTitleKey (b : Book) : List Nat :=
  b.title.data.map Char.toNat

/-- Sort key of a publish date: rows without one order first, the rest
by instant. -/
def pubSortKey (b : Book) : WithBot (Lex (Int × Nat)) :=
  match b.publishedAt with
  | none => ⊥
  | some t => (toLex (timeAbsSec t, t.nano) : Lex (Int × Nat))

/-- Modelled from the spec: the comparison selected by the sort key of
the descriptor (spec 4.2).  Each descending key is the exact dual of the
corresponding ascending key, so that a descending listing is the exact
reverse of the ascending one; an unrecognized key, whose effect the spec
leaves undefined, keeps the stored order. -/
def bookLE (key : String) (a b : Nat × Book) : Bool :=
  if key = "title_asc" then keyIdxLE bookTitleKey a b
  else if key = "title_desc" then keyIdxLE bookTitleKey b a
  else if key = "created_at_asc" then keyIdxLE Book.createdAt a b
  else if key = "created_at_desc" then keyIdxLE Book.createdAt b a
  else if key = "published_at_asc" then keyIdxLE pubSortKey a b
  else if key = "published_at_desc" then keyIdxLE pubSortKey b a
  else true

/-- The sort comparison as a decidable relation, for sorting. -/
def bookRel (key : String) : (Nat × Book) → (Nat × Book) → Prop :=
  fun a b => bookLE key a b = true

instance (key : String) : DecidableRel (bookRel key) :=
  fun a b => inferInstanceAs (Decidable (bookLE key a b = true))

/-- The result of the repository List operation: one page of rows plus
the pre-pagination total (repository.BookListResult). -/
structure BookListResult where
  books : List Book
  total : Int
  deriving DecidableEq

/-- Modelled from the spec: the repository List operation (spec 4.2),
whose parameterised implementation is not part of the source tree.
Rows matching the filter predicate are sorted under the descriptor's
key, then offset (page-1)*pageSize and limit pageSize are applied; the
total counts the matching rows before pagination. -/
def listBooks (store : List Book) (p : BookListParams) : BookListResult :=
  let filtered := store.filter (bookMatches p)
  let sorted := ((filtered.enum).insertionSort (bookRel p.sort)).map Prod.snd
  let offset := ((p.page - 1) * p.pageSize).toNat
  let limit := p.pageSize.toNat
  { books := (sorted.drop offset).take limit
    total := (filtered.length : Int) }

/-- One assembled listing response: the page of rows and the pagination
block, as BookHandler.ListBooks returns them on success. -/
structure ListBooksOut where
  books : List Book
  page : Int
  pageSize : Int
  total : Int
  totalPages : Int
  deriving DecidableEq

/-- Embedding of BookHandler.ListBooks end to end against the modelled
repository: parse and validate the query, run the List operation, then
assemble the pagination block.  An error is returned before the store is
consulted, which the theorems express by the error being the same for
every store. -/
def listBooksHandler (store : List Book) (raw : RawListQuery) :
    Except HError ListBooksOut :=
  match listBooksParse raw with
  | .error e => .error e
  | .ok params =>
    let r := listBooks store params
    .ok { books := r.books
          page := params.page
          pageSize := params.pageSize
          total := r.total
          totalPages := computeTotalPages params.pageSize r.total }

/-! ### Create (BookHandler.CreateBook, repository Create) -/

/-- An error surfaced by the repository to a handler: a Postgres error
with its SQLSTATE code and constraint name, the gorm record-not-found
sentinel, or any other storage failure. -/
inductive RepoErr where
  | pg (code constraintName : String)
  | recordNotFound
  | generic
  deriving DecidableEq

/-- Modelled from the spec: creating a Book whose author reference names
no existing Author violates the fk_authors_books foreign key, which the
database reports as SQLSTATE 23503 with that constraint name; a create
with an existing author succeeds.  The repository Create itself
(books.go) forwards the row and surfaces the error unmodified. -/
def repoCreate (authors : List UUIDv) (b : Book) : Option RepoErr :=
  if b.authorID ∈ authors then none
  else some (.pg "23503" "fk_authors_books")

/-- Embedding of the error branch of BookHandler.CreateBook (book.go
lines 68-85): a Postgres 23503 error on fk_authors_books answers 400
AUTHOR_NOT_FOUND, every other create failure answers 500
BOOK_CREATE_FAILED. -/
def createBookErr (e : RepoErr) : HError :=
  match e with
  | .pg code cname =>
    if code = "23503" ∧ cname = "fk_authors_books" then (400, "AUTHOR_NOT_FOUND")
    else (500, "BOOK_CREATE_FAILED")
  | _ => (500, "BOOK_CREATE_FAILED")

/-- Embedding of BookHandler.CreateBook against the modelled store: a
failed repository Create is mapped through createBookErr, success stores
the row and answers 201. -/
def createBook (authors : List UUIDv) (store : List Book) (b : Book) :
    Except HError (Nat × List Book) :=
  match repoCreate authors b with
  | some e => .error (createBookErr e)
  | none => .ok (201, store ++ [b])

/-! ### Delete (GormBookRepository.Delete, BookHandler.DeleteBook) -/

/-- Embedding of GormBookRepository.Delete (books.go lines 65-74): all
rows with the identifier are removed; when no row was affected the gorm
record-not-found sentinel is returned instead of silent success. -/
def repoDelete (store : List Book) (id : UUIDv) : Except RepoErr (List Book) :=
  let remaining := store.filter (fun b => b.id ≠ id)
  if store.length - remaining.length = 0 then .error .recordNotFound
  else .ok remaining

/-- Embedding of BookHandler.DeleteBook (book.go lines 343-372): an
unparsable identifier answers 400 INVALID_BOOK_ID, a record-not-found
delete answers 404 BOOK_NOT_FOUND, any other failure 500
BOOK_DELETE_FAILED, and success answers 204 with the row removed. -/
def deleteBook (store : List Book) (idStr : String) :
    Except HError (Nat × List Book) :=
  match uuidParse idStr with
  | none => .error (400, "INVALID_BOOK_ID")
  | some id =>
    match repoDelete store id with
    | .error .recordNotFound => .error (404, "BOOK_NOT_FOUND")
    | .error _ => .error (500, "BOOK_DELETE_FAILED")
    | .ok store' => .ok (204, store')

/-! ### Update (BookHandler.UpdateBook, GormBookRepository.Update) -/

/-- The decoded PATCH body (handler.UpdateBookRequest): every field
optional, published_at already decoded by model.Date.UnmarshalJSON. -/
structure UpdateBookRequest where
  title : Option String := none
  authorID : Option UUIDv := none
  description : Option String := none
  publishedAt : Option GoTime := none
  deriving DecidableEq

/-- Field rules of the binding tags of UpdateBookRequest: a present
title must be non-empty and a present description at most 2000
characters (the uuid4 shape check of the external binding library is
not modelled). -/
def validUpdateReq (r : UpdateBookRequest) : Bool :=
  (match r.title with
   | none => true
   | some t => t.length ≥ 1)
  && (match r.description with
      | none => true
      | some d => d.length ≤ 2000)

/-- Embedding of the field-merge section of BookHandler.UpdateBook
(book.go lines 294-310): each present field overwrites the stored one,
and a present published_at equal to the zero time clears the stored
publication date while a non-zero one sets it. -/
def applyUpdate (b : Book) (r : UpdateBookRequest) : Book :=
  { b with
    title := r.title.getD b.title
    authorID := r.authorID.getD b.authorID
    description := r.description.getD b.description
    publishedAt :=
      match r.publishedAt with
      | none => b.publishedAt
      | some t => if goTimeIsZero t then none else some t }

/-- Embedding of GormBookRepository.Update (books.go lines 53-63): the
title, description, author and publish-date columns of every row with
the identifier are set from the given row. -/
def repoUpdate (store : List Book) (b : Book) : List Book :=
  store.map fun r =>
    if r.id = b.id then
      { r with title := b.title, description := b.description,
               authorID := b.authorID, publishedAt := b.publishedAt }
    else r

/-- Outcome of one UpdateBook request: the HTTP answer, the store after
the request, and whether the repository Update was invoked. -/
structure UpdateOutcome where
  status : Nat
  code : String
  body : Option Book
  store : List Book
  updateInvoked : Bool
  deriving DecidableEq

/-- Embedding of BookHandler.UpdateBook (book.go lines 249-330):
identifier parsing, the existence check, body validation, the
NO_FIELDS_TO_UPDATE guard when no updatable field is present, the field
merge, and the repository Update followed by a re-fetch. -/
def updateBook (store : List Book) (idStr : String) (req : UpdateBookRequest) :
    UpdateOutcome :=
  match uuidParse idStr with
  | none => ⟨400, "INVALID_BOOK_ID", none, store, false⟩
  | some id =>
    match store.find? (fun b => b.id = id) with
    | none => ⟨404, "BOOK_NOT_FOUND", none, store, false⟩
    | some book =>
      if ¬ validUpdateReq req then
        ⟨400, "VALIDATION_ERROR", none, store, false⟩
      else if req.title = none ∧ req.authorID = none ∧
              req.description = none ∧ req.publishedAt = none then
        ⟨400, "NO_FIELDS_TO_UPDATE", none, store, false⟩
      else
        let merged := applyUpdate book req
        let store' := repoUpdate store merged
        ⟨200, "", store'.find? (fun b => b.id = id), store', true⟩

/-! ### Helper lemmas -/

/-- A defaulted integer query parameter is the default whenever Atoi
rejects the raw value (also when the value is absent or empty). -/
theorem parseIntQuery_of_atoi_none {raw : RawParam} {d : Int}
    (h : goAtoi (cQuery raw) = none) : parseIntQuery raw d = d := by
  unfold parseIntQuery
  by_cases hs : cQuery raw = ""
  · simp [hs]
  · simp [hs, h]

/-- A defaulted integer query parameter is the parsed value whenever
Atoi accepts the raw value. -/
theorem parseIntQuery_of_atoi_some {raw : RawParam} {d v : Int}
    (h : goAtoi (cQuery raw) = some v) : parseIntQuery raw d = v := by
  have hs : cQuery raw ≠ "" := by
    intro he
    rw [he] at h
    exact Option.noConfusion h
  unfold parseIntQuery
  simp [hs, h]

/-- Field view of a successful query parse: each descriptor field in
terms of the raw query. -/
theorem listBooksParse_ok {raw : RawListQuery} {p : BookListParams}
    (hok : listBooksParse raw = .ok p) :
    p.page = parseIntQuery raw.page 1 ∧
    p.pageSize = (if parseIntQuery raw.pageSize 20 > 100 then 100
                  else parseIntQuery raw.pageSize 20) ∧
    p.sort = cDefaultQuery raw.sort "created_at_desc" ∧
    p.query = cQuery raw.q := by
  unfold listBooksParse at hok
  rcases hA : parseAuthor raw.authorID with e | aid <;> rw [hA] at hok
  · exact Except.noConfusion hok
  · rcases hPA : parseDateQuery raw.pubAfter with u | pa <;> rw [hPA] at hok
    · exact Except.noConfusion hok
    · rcases hPB : parseDateQuery raw.pubBefore with u | pb <;> rw [hPB] at hok
      · exact Except.noConfusion hok
      · cases hok
        exact ⟨rfl, rfl, rfl, rfl⟩

/-! ### C1 -/

/-- C1: the claim that a non-positive page or page_size falls back to
the defaults is false at a concrete input: the query page=-5,
page_size=0 parses successfully with page -5 and page size 0, so the
page used is neither the default 1 nor positive. -/
theorem c1_counterexample :
    listBooksParse { page := some "-5", pageSize := some "0" } =
      .ok { page := -5, pageSize := 0, sort := "created_at_desc", query := "",
            authorID := none, pubAfter := none, pubBefore := none } ∧
    ((-5 : Int) ≠ 1 ∧ ¬ (0 < (-5 : Int))) ∧
    ((0 : Int) ≠ 20 ∧ ¬ (0 < (0 : Int))) := by
  decide

/-- C1 (amended): a page or page_size value rejected by integer parsing
(non-numeric, absent or empty) falls back to the default (page 1, page
size 20), and an accepted numeric page_size above 100 is clamped to 100;
but an accepted numeric value, including zero or a negative one, is used
as parsed, so the effective page and page size are not always
positive. -/
theorem c1_amended (raw : RawListQuery) (p : BookListParams)
    (hok : listBooksParse raw = .ok p) :
    (goAtoi (cQuery raw.page) = none → p.page = 1) ∧
    (goAtoi (cQuery raw.pageSize) = none → p.pageSize = 20) ∧
    (∀ v, goAtoi (cQuery raw.page) = some v → p.page = v) ∧
    (∀ v, goAtoi (cQuery raw.pageSize) = some v →
      p.pageSize = if v > 100 then 100 else v) := by
  obtain ⟨hpg, hps, -, -⟩ := listBooksParse_ok hok
  refine ⟨fun h => ?_, fun h => ?_, fun v h => ?_, fun v h => ?_⟩
  · rw [hpg, parseIntQuery_of_atoi_none h]
  · rw [hps, parseIntQuery_of_atoi_none h]
    norm_num
  · rw [hpg, parseIntQuery_of_atoi_some h]
  · rw [hps, parseIntQuery_of_atoi_some h]

/-- C1 amended witness: a non-numeric page falls back to 1 and a numeric
page_size of 250 is clamped to 100, at the concrete query
page=abc, page_size=250. -/
theorem c1_amended_witness :
    (({ page := 1, pageSize := 100, sort := "created_at_desc", query := "",
        authorID := none, pubAfter := none, pubBefore := none } : BookListParams).page = 1) ∧
    (({ page := 1, pageSize := 100, sort := "created_at_desc", query := "",
        authorID := none, pubAfter := none, pubBefore := none } : BookListParams).pageSize =
      if (250 : Int) > 100 then 100 else 250) := by
  have h := c1_amended { page := some "abc", pageSize := some "250" }
    { page := 1, pageSize := 100, sort := "created_at_desc", query := "",
      authorID := none, pubAfter := none, pubBefore := none } (by decide)
  exact ⟨h.1 (by decide), h.2.2.2 250 (by decide)⟩

/-! ### C2 -/

/-- Go's expression (total + pageSize - 1) / pageSize with truncating
division equals the exact rational ceiling of total / pageSize for a
non-negative total and positive page size. -/
theorem computeTotalPages_eq_ceil (ps t : Int) (ht : 0 ≤ t) (hps : 0 < ps) :
    computeTotalPages ps t = ⌈(t : ℚ) / (ps : ℚ)⌉ := by
  unfold computeTotalPages
  rw [if_pos hps, Int.tdiv_eq_ediv (by linarith) (le_of_lt hps)]
  set c : Int := (t + ps - 1) / ps with hc
  have hlow : c * ps ≤ t + ps - 1 := (Int.le_ediv_iff_mul_le hps).mp (le_of_eq hc)
  have hhigh : t + ps - 1 < (c + 1) * ps := by
    refine (Int.ediv_lt_iff_lt_mul hps).mp ?_
    rw [← hc]
    exact lt_add_one c
  have hps' : (0 : ℚ) < (ps : ℚ) := by exact_mod_cast hps
  symm
  rw [Int.ceil_eq_iff]
  constructor
  · rw [show ((c : ℚ) - 1) = (((c - 1 : Int)) : ℚ) by push_cast; ring,
        lt_div_iff₀ hps']
    have h2 : (c - 1) * ps < t := by nlinarith
    exact_mod_cast h2
  · rw [div_le_iff₀ hps']
    have h3 : t ≤ c * ps := by nlinarith
    exact_mod_cast h3

/-- C2: every successful listing response reports total_pages equal to
the exact integer ceiling of total over the page size when the page
size is positive, and total_pages 0 when the page size is 0. -/
theorem c2_totalPages (store : List Book) (raw : RawListQuery) (out : ListBooksOut)
    (hok : listBooksHandler store raw = .ok out) :
    (0 < out.pageSize → out.totalPages = ⌈(out.total : ℚ) / (out.pageSize : ℚ)⌉) ∧
    (out.pageSize = 0 → out.totalPages = 0) := by
  unfold listBooksHandler at hok
  rcases hP : listBooksParse raw with e | params <;> rw [hP] at hok
  · exact Except.noConfusion hok
  · cases hok
    constructor
    · intro hpos
      exact computeTotalPages_eq_ceil _ _ (Int.natCast_nonneg _) hpos
    · intro h0
      have h0' : params.pageSize = 0 := h0
      show computeTotalPages params.pageSize _ = 0
      unfold computeTotalPages
      rw [h0']
      simp

/-- C2 witness: the empty store with the default query answers page
size 20, total 0 and total_pages 0, and the theorem instantiates
there. -/
theorem c2_totalPages_witness :
    (0 < (({ books := [], page := 1, pageSize := 20, total := 0,
             totalPages := 0 } : ListBooksOut)).pageSize →
      (({ books := [], page := 1, pageSize := 20, total := 0,
          totalPages := 0 } : ListBooksOut)).totalPages =
        ⌈((({ books := [], page := 1, pageSize := 20, total := 0,
              totalPages := 0 } : ListBooksOut)).total : ℚ) /
          ((({ books := [], page := 1, pageSize := 20, total := 0,
               totalPages := 0 } : ListBooksOut)).pageSize : ℚ)⌉) ∧
    ((({ books := [], page := 1, pageSize := 20, total := 0,
         totalPages := 0 } : ListBooksOut)).pageSize = 0 →
      (({ books := [], page := 1, pageSize := 20, total := 0,
          totalPages := 0 } : ListBooksOut)).totalPages = 0) :=
  c2_totalPages [] {} _ (by decide)

/-! ### C5 -/

/-- The author step fails with INVALID_AUTHOR_ID exactly on a present,
non-empty author_id that UUID parsing rejects. -/
theorem parseAuthor_err {raw : RawParam} (hne : cQuery raw ≠ "")
    (hbad : uuidParse (cQuery raw) = none) :
    parseAuthor raw = .error (400, "INVALID_AUTHOR_ID") := by
  unfold parseAuthor
  simp [hne, hbad]

/-- The author step succeeds on an absent or empty author_id and on a
valid UUID. -/
theorem parseAuthor_ok {raw : RawParam}
    (hgood : cQuery raw = "" ∨ uuidParse (cQuery raw) ≠ none) :
    ∃ aid, parseAuthor raw = .ok aid := by
  unfold parseAuthor
  rcases hgood with he | hne
  · simp [he]
  · by_cases hs : cQuery raw = ""
    · simp [hs]
    · rcases hu : uuidParse (cQuery raw) with _ | id
      · exact absurd hu hne
      · simp [hs, hu]

/-- A date-bound step fails exactly on a present, non-empty value that
the fixed layout rejects. -/
theorem parseDateQuery_err {raw : RawParam} (hne : cQuery raw ≠ "")
    (hbad : goParseDate (cQuery raw) = none) :
    parseDateQuery raw = .error () := by
  unfold parseDateQuery
  simp [hne, hbad]

/-- A date-bound step succeeds on an absent or empty value and on a
well-formed date. -/
theorem parseDateQuery_ok {raw : RawParam}
    (hgood : cQuery raw = "" ∨ goParseDate (cQuery raw) ≠ none) :
    ∃ d, parseDateQuery raw = .ok d := by
  unfold parseDateQuery
  rcases hgood with he | hne
  · simp [he]
  · by_cases hs : cQuery raw = ""
    · simp [hs]
    · rcases hd : goParseDate (cQuery raw) with _ | t
      · exact absurd hd hne
      · simp [hs, hd]

/-- C5: a malformed author_id makes every listing request fail with 400
INVALID_AUTHOR_ID, and a malformed published_after or published_before
under the fixed YYYY-MM-DD layout fails with 400 and the error code
naming the malformed bound; each failure is produced by query parsing
alone, before the repository is consulted, which the statement expresses
by the outcome being the same error for every store. -/
theorem c5_invalidFilters (store : List Book) (raw : RawListQuery) :
    (cQuery raw.authorID ≠ "" → uuidParse (cQuery raw.authorID) = none →
      listBooksHandler store raw = .error (400, "INVALID_AUTHOR_ID")) ∧
    ((cQuery raw.authorID = "" ∨ uuidParse (cQuery raw.authorID) ≠ none) →
      cQuery raw.pubAfter ≠ "" → goParseDate (cQuery raw.pubAfter) = none →
      listBooksHandler store raw = .error (400, "INVALID_PUBLISHED_AFTER")) ∧
    ((cQuery raw.authorID = "" ∨ uuidParse (cQuery raw.authorID) ≠ none) →
      (cQuery raw.pubAfter = "" ∨ goParseDate (cQuery raw.pubAfter) ≠ none) →
      cQuery raw.pubBefore ≠ "" → goParseDate (cQuery raw.pubBefore) = none →
      listBooksHandler store raw = .error (400, "INVALID_PUBLISHED_BEFORE")) := by
  refine ⟨fun hne hbad => ?_, fun hga hne hbad => ?_, fun hga hgd hne hbad => ?_⟩
  · unfold listBooksHandler listBooksParse
    rw [parseAuthor_err hne hbad]
  · obtain ⟨aid, ha⟩ := parseAuthor_ok hga
    unfold listBooksHandler listBooksParse
    rw [ha, parseDateQuery_err hne hbad]
  · obtain ⟨aid, ha⟩ := parseAuthor_ok hga
    obtain ⟨d, hd⟩ := parseDateQuery_ok hgd
    unfold listBooksHandler listBooksParse
    rw [ha, hd, parseDateQuery_err hne hbad]

/-- C5 witness: the concrete query author_id=not-a-uuid fails with 400
INVALID_AUTHOR_ID on the empty store. -/
theorem c5_invalidFilters_witness :
    listBooksHandler [] { authorID := some "not-a-uuid" } =
      .error (400, "INVALID_AUTHOR_ID") :=
  (c5_invalidFilters [] { authorID := some "not-a-uuid" }).1 (by decide) (by decide)

/-! ### C6 -/

/-- C6: an absent sort parameter defaults to created_at_desc, a provided
sort string is placed verbatim in the descriptor, and changing the sort
string of a request that parses successfully never turns it into a
rejection: the parse still succeeds and only the descriptor's sort field
changes, whatever the string, enumerated or not. -/
theorem c6_sortPassthrough (raw : RawListQuery) (p : BookListParams) (s : String) :
    (raw.sort = none → listBooksParse raw = .ok p → p.sort = "created_at_desc") ∧
    (raw.sort = some s → listBooksParse raw = .ok p → p.sort = s) ∧
    (listBooksParse raw = .ok p →
      listBooksParse { raw with sort := some s } = .ok { p with sort := s }) := by
  refine ⟨fun hn hok => ?_, fun hs hok => ?_, fun hok => ?_⟩
  · obtain ⟨-, -, hsrt, -⟩ := listBooksParse_ok hok
    rw [hsrt, hn]
    rfl
  · obtain ⟨-, -, hsrt, -⟩ := listBooksParse_ok hok
    rw [hsrt, hs]
    rfl
  · unfold listBooksParse at hok ⊢
    rcases hA : parseAuthor raw.authorID with e | aid <;> rw [hA] at hok
    · exact Except.noConfusion hok
    · rcases hPA : parseDateQuery raw.pubAfter with u | pa <;> rw [hPA] at hok
      · exact Except.noConfusion hok
      · rcases hPB : parseDateQuery raw.pubBefore with u | pb <;> rw [hPB] at hok
        · exact Except.noConfusion hok
        · cases hok
          rfl

/-- C6 witness: the default query parses with sort created_at_desc, and
replacing the sort with the unenumerated string bogus still parses,
carrying that string through verbatim. -/
theorem c6_sortPassthrough_witness :
    (listBooksParse { sort := (none : RawParam) } =
      .ok { page := 1, pageSize := 20, sort := "created_at_desc", query := "",
            authorID := none, pubAfter := none, pubBefore := none } →
      ({ page := 1, pageSize := 20, sort := "created_at_desc", query := "",
         authorID := none, pubAfter := none, pubBefore := none } : BookListParams).sort =
        "created_at_desc") ∧
    listBooksParse { sort := some "bogus" } =
      .ok { page := 1, pageSize := 20, sort := "bogus", query := "",
            authorID := none, pubAfter := none, pubBefore := none } := by
  have h := c6_sortPassthrough {}
    { page := 1, pageSize := 20, sort := "created_at_desc", query := "",
      authorID := none, pubAfter := none, pubBefore := none } "bogus"
  exact ⟨h.1 rfl, h.2.2 (by decide)⟩

/-! ### C7 -/

/-- C7: creating a book whose author reference names no existing Author
fails with 400 AUTHOR_NOT_FOUND, while a generic storage failure is
mapped to the distinct answer 500 BOOK_CREATE_FAILED. -/
theorem c7_createAuthorNotFound (authors : List UUIDv) (store : List Book) (b : Book)
    (habsent : b.authorID ∉ authors) :
    createBook authors store b = .error (400, "AUTHOR_NOT_FOUND") ∧
    createBookErr .generic = (500, "BOOK_CREATE_FAILED") ∧
    (400, "AUTHOR_NOT_FOUND") ≠ ((500, "BOOK_CREATE_FAILED") : HError) := by
  refine ⟨?_, rfl, by decide⟩
  unfold createBook repoCreate
  simp only [if_neg habsent]
  rfl

/-- C7 witness: a concrete create against an empty author set fails with
400 AUTHOR_NOT_FOUND. -/
theorem c7_createAuthorNotFound_witness :
    createBook [] [] ⟨[1], "T", [2], "", none, 0⟩ =
      .error (400, "AUTHOR_NOT_FOUND") ∧
    createBookErr .generic = (500, "BOOK_CREATE_FAILED") ∧
    (400, "AUTHOR_NOT_FOUND") ≠ ((500, "BOOK_CREATE_FAILED") : HError) :=
  c7_createAuthorNotFound [] [] ⟨[1], "T", [2], "", none, 0⟩ (by decide)

/-! ### C8 -/

/-- C8: deleting an identifier matching no stored book makes the
repository report record-not-found and the endpoint answer 404
BOOK_NOT_FOUND, never silent success; deleting an existing book answers
204 with every row of that identifier removed. -/
theorem c8_deleteBook (store : List Book) (idStr : String) (id : UUIDv)
    (hid : uuidParse idStr = some id) :
    ((∀ b ∈ store, b.id ≠ id) →
      repoDelete store id = .error .recordNotFound ∧
      deleteBook store idStr = .error (404, "BOOK_NOT_FOUND")) ∧
    ((∃ b ∈ store, b.id = id) →
      deleteBook store idStr = .ok (204, store.filter (fun b => b.id ≠ id)) ∧
      ∀ b' ∈ store.filter (fun b => b.id ≠ id), b'.id ≠ id) := by
  constructor
  · intro hnone
    have hfull : store.filter (fun b => b.id ≠ id) = store :=
      List.filter_eq_self.mpr (fun b hb => by
        simpa using hnone b hb)
    have hrepo : repoDelete store id = .error .recordNotFound := by
      unfold repoDelete
      rw [hfull]
      simp
    refine ⟨hrepo, ?_⟩
    unfold deleteBook
    rw [hid]
    simp only [hrepo]
  · intro ⟨w, hw, hwid⟩
    have hlt : (store.filter (fun b => b.id ≠ id)).length < store.length := by
      refine List.length_filter_lt_length_iff_exists.mpr ⟨w, hw, ?_⟩
      simp [hwid]
    have hrepo : repoDelete store id = .ok (store.filter (fun b => b.id ≠ id)) := by
      unfold repoDelete
      rw [if_neg (by omega)]
    constructor
    · unfold deleteBook
      rw [hid]
      simp only [hrepo]
    · intro b' hb'
      simpa using (List.mem_filter.mp hb').2

/-- All-zero UUID, matching 00000000-0000-0000-0000-000000000000. -/
def zeroUUID : UUIDv := List.replicate 16 0

/-- A concrete sample row used in concrete instantiations. -/
def sampleBook : Book := ⟨zeroUUID, "T", [1], "", none, 0⟩

/-- C8 witness: a store holding one book answers 204 with the book
removed when that book is deleted, and 404 BOOK_NOT_FOUND on the empty
store for the same identifier. -/
theorem c8_deleteBook_witness :
    (repoDelete [] zeroUUID = .error .recordNotFound ∧
      deleteBook [] "00000000-0000-0000-0000-000000000000" =
        .error (404, "BOOK_NOT_FOUND")) ∧
    (deleteBook [sampleBook] "00000000-0000-0000-0000-000000000000" =
      .ok (204, List.filter (fun b => b.id ≠ zeroUUID) [sampleBook])) := by
  constructor
  · refine (c8_deleteBook [] "00000000-0000-0000-0000-000000000000" zeroUUID ?_).1 ?_
    · decide
    · intro b hb
      simp at hb
  · exact ((c8_deleteBook [sampleBook] "00000000-0000-0000-0000-000000000000" zeroUUID
      (by decide)).2 ⟨sampleBook, by decide, by decide⟩).1

/-! ### C9 -/

/-- C9: a PATCH on an existing book whose body has none of the four
updatable fields answers 400 NO_FIELDS_TO_UPDATE, leaves the store
untouched and never invokes the repository Update. -/
theorem c9_noFieldsToUpdate (store : List Book) (idStr : String) (id : UUIDv)
    (book : Book) (hid : uuidParse idStr = some id)
    (hfind : store.find? (fun b => decide (b.id = id)) = some book) :
    updateBook store idStr ⟨none, none, none, none⟩ =
      ⟨400, "NO_FIELDS_TO_UPDATE", none, store, false⟩ := by
  unfold updateBook
  rw [hid]
  simp only [hfind]
  rfl

/-- C9 witness: the concrete empty-body PATCH on a one-book store
answers NO_FIELDS_TO_UPDATE with the store unchanged. -/
theorem c9_noFieldsToUpdate_witness :
    updateBook [sampleBook] "00000000-0000-0000-0000-000000000000"
        ⟨none, none, none, none⟩ =
      ⟨400, "NO_FIELDS_TO_UPDATE", none, [sampleBook], false⟩ :=
  c9_noFieldsToUpdate _ _ zeroUUID sampleBook (by decide) (by decide)

/-! ### C10 -/

/-- The merged row keeps the stored identifier. -/
theorem applyUpdate_id (b : Book) (r : UpdateBookRequest) :
    (applyUpdate b r).id = b.id := rfl

/-- Publication date of the merged row: untouched when the field is
absent, cleared on the zero time, set otherwise. -/
theorem applyUpdate_publishedAt (b : Book) (r : UpdateBookRequest) :
    (applyUpdate b r).publishedAt =
      (match r.publishedAt with
       | none => b.publishedAt
       | some t => if goTimeIsZero t then none else some t) := rfl

/-- Writing the merged row through the repository Update leaves the row
found for the identifier equal to the found row with the four written
columns replaced. -/
theorem find_repoUpdate {store : List Book} {id : UUIDv} {book merged : Book}
    (hmid : merged.id = id)
    (hfind : store.find? (fun b => decide (b.id = id)) = some book) :
    (repoUpdate store merged).find? (fun b => decide (b.id = id)) =
      some { book with
             title := merged.title
             description := merged.description
             authorID := merged.authorID
             publishedAt := merged.publishedAt } := by
  induction store with
  | nil => simp at hfind
  | cons hd tl ih =>
    unfold repoUpdate
    by_cases hhd : hd.id = id
    · rw [List.find?_cons_of_pos _ (by simpa using hhd)] at hfind
      cases hfind
      simp only [List.map_cons]
      rw [if_pos (by rw [hmid]; exact hhd)]
      rw [List.find?_cons_of_pos _ (by simpa using hhd)]
    · rw [List.find?_cons_of_neg _ (by simpa using hhd)] at hfind
      simp only [List.map_cons]
      rw [if_neg (by rw [hmid]; exact hhd)]
      rw [List.find?_cons_of_neg _ (by simpa using hhd)]
      exact ih hfind

/-- A concrete stored row with a set publication date. -/
def c10Book : Book := ⟨zeroUUID, "T", [1], "", some (mkDate 2020 1 1), 0⟩

/-- C10: the claim that every non-empty parsable published_at value sets
the stored publication date is false at a concrete input: the non-empty
date 0001-01-01 unmarshals to the Go zero time, so the handler clears
the publication date to null instead of setting it. -/
theorem c10_counterexample :
    dateUnmarshalString "0001-01-01" = some goTimeZero ∧
    (updateBook [c10Book] "00000000-0000-0000-0000-000000000000"
        ⟨none, none, none, some goTimeZero⟩).body =
      some { c10Book with publishedAt := none } ∧
    ¬ ((updateBook [c10Book] "00000000-0000-0000-0000-000000000000"
        ⟨none, none, none, some goTimeZero⟩).body =
      some { c10Book with publishedAt := some goTimeZero }) := by
  decide

/-- C10 (amended): the empty string unmarshals to the zero time and a
published_at carrying the zero time clears the stored date to null;
omitting published_at leaves the stored date unchanged; and a non-empty
date that parses to a non-zero time sets it — while a non-empty date
parsing to the zero time (such as 0001-01-01) also clears it. -/
theorem c10_publishedAt (store : List Book) (idStr : String) (id : UUIDv)
    (book : Book) (req : UpdateBookRequest) (t : GoTime)
    (hid : uuidParse idStr = some id)
    (hfind : store.find? (fun b => decide (b.id = id)) = some book)
    (hvalid : validUpdateReq req = true)
    (hsome : ¬ (req.title = none ∧ req.authorID = none ∧
                req.description = none ∧ req.publishedAt = none)) :
    (dateUnmarshalString "" = some goTimeZero ∧ goTimeIsZero goTimeZero = true) ∧
    (req.publishedAt = some t → goTimeIsZero t = true →
      ∃ b', (updateBook store idStr req).body = some b' ∧ b'.publishedAt = none) ∧
    (req.publishedAt = none →
      ∃ b', (updateBook store idStr req).body = some b' ∧
        b'.publishedAt = book.publishedAt) ∧
    (req.publishedAt = some t → goTimeIsZero t = false →
      ∃ b', (updateBook store idStr req).body = some b' ∧
        b'.publishedAt = some t) := by
  have hbid : book.id = id := by simpa using List.find?_some hfind
  have hmid : (applyUpdate book req).id = id := by rw [applyUpdate_id]; exact hbid
  have hbody : (updateBook store idStr req).body =
      some { book with
             title := (applyUpdate book req).title
             description := (applyUpdate book req).description
             authorID := (applyUpdate book req).authorID
             publishedAt := (applyUpdate book req).publishedAt } := by
    unfold updateBook
    rw [hid]
    simp only [hfind]
    rw [if_neg (not_not_intro hvalid), if_neg hsome]
    exact find_repoUpdate hmid hfind
  refine ⟨⟨by decide, by decide⟩, fun hp hz => ?_, fun hp => ?_, fun hp hz => ?_⟩
  · refine ⟨_, hbody, ?_⟩
    show (applyUpdate book req).publishedAt = none
    rw [applyUpdate_publishedAt, hp]
    simp [hz]
  · refine ⟨_, hbody, ?_⟩
    show (applyUpdate book req).publishedAt = book.publishedAt
    rw [applyUpdate_publishedAt, hp]
  · refine ⟨_, hbody, ?_⟩
    show (applyUpdate book req).publishedAt = some t
    rw [applyUpdate_publishedAt, hp]
    simp [hz]

/-- C10 amended witness: a PATCH changing only the title leaves the
stored publication date of the sample row unchanged. -/
theorem c10_publishedAt_witness :
    ∃ b', (updateBook [c10Book] "00000000-0000-0000-0000-000000000000"
        ⟨some "T2", none, none, none⟩).body = some b' ∧
      b'.publishedAt = c10Book.publishedAt :=
  (c10_publishedAt [c10Book] "00000000-0000-0000-0000-000000000000" zeroUUID c10Book
      ⟨some "T2", none, none, none⟩ goTimeZero
      (by decide) (by decide) (by decide) (by decide)).2.2.1 rfl

/-! ### Order properties of the sort comparisons -/

/-- Transitivity of one key-then-index comparison. -/
theorem keyIdxLE_trans {κ : Type} [LinearOrder κ] (keyOf : Book → κ)
    (a b c : Nat × Book) (hab : keyIdxLE keyOf a b = true)
    (hbc : keyIdxLE keyOf b c = true) : keyIdxLE keyOf a c = true := by
  simp only [keyIdxLE, Bool.or_eq_true, Bool.and_eq_true, decide_eq_true_eq] at *
  rcases hab with h1 | ⟨h1, h1i⟩ <;> rcases hbc with h2 | ⟨h2, h2i⟩
  · exact Or.inl (lt_trans h1 h2)
  · exact Or.inl (lt_of_lt_of_eq h1 h2)
  · exact Or.inl (lt_of_eq_of_lt h1 h2)
  · exact Or.inr ⟨h1.trans h2, le_trans h1i h2i⟩

/-- Totality of one key-then-index comparison. -/
theorem keyIdxLE_total {κ : Type} [LinearOrder κ] (keyOf : Book → κ)
    (a b : Nat × Book) : (keyIdxLE keyOf a b || keyIdxLE keyOf b a) = true := by
  simp only [keyIdxLE, Bool.or_eq_true, Bool.and_eq_true, decide_eq_true_eq]
  rcases lt_trichotomy (keyOf a.2) (keyOf b.2) with h | h | h
  · exact Or.inl (Or.inl h)
  · rcases Nat.le_total a.1 b.1 with hi | hi
    · exact Or.inl (Or.inr ⟨h, hi⟩)
    · exact Or.inr (Or.inr ⟨h.symm, hi⟩)
  · exact Or.inr (Or.inl h)

/-- Two rows comparing below each other under one key-then-index
comparison carry the same index. -/
theorem keyIdxLE_antisymm {κ : Type} [LinearOrder κ] (keyOf : Book → κ)
    (a b : Nat × Book) (hab : keyIdxLE keyOf a b = true)
    (hba : keyIdxLE keyOf b a = true) : a.1 = b.1 := by
  simp only [keyIdxLE, Bool.or_eq_true, Bool.and_eq_true, decide_eq_true_eq] at hab hba
  rcases hab with h1 | ⟨h1, h1i⟩ <;> rcases hba with h2 | ⟨h2, h2i⟩
  · exact absurd h2 (lt_asymm h1)
  · exact absurd (lt_of_lt_of_eq h1 h2) (lt_irrefl _)
  · exact absurd (lt_of_lt_of_eq h2 h1) (lt_irrefl _)
  · exact Nat.le_antisymm h1i h2i

/-- Transitivity of the sort comparison, whatever the sort key. -/
theorem bookLE_trans (key : String) (a b c : Nat × Book)
    (hab : bookLE key a b = true) (hbc : bookLE key b c = true) :
    bookLE key a c = true := by
  unfold bookLE at hab hbc ⊢
  split_ifs at hab hbc ⊢ <;>
    first
      | exact keyIdxLE_trans _ _ _ _ hab hbc
      | exact keyIdxLE_trans _ _ _ _ hbc hab
      | rfl

/-- Totality of the sort comparison, whatever the sort key. -/
theorem bookLE_total (key : String) (a b : Nat × Book) :
    (bookLE key a b || bookLE key b a) = true := by
  unfold bookLE
  split_ifs <;>
    first
      | exact keyIdxLE_total _ _ _
      | rfl

/-- The sort comparison as a total relation. -/
theorem bookRel_isTotal (key : String) : IsTotal (Nat × Book) (bookRel key) :=
  ⟨fun a b => by
    have h := bookLE_total key a b
    rw [Bool.or_eq_true] at h
    exact h⟩

/-- The sort comparison as a transitive relation. -/
theorem bookRel_isTrans (key : String) : IsTrans (Nat × Book) (bookRel key) :=
  ⟨fun a b c => bookLE_trans key a b c⟩

/-- Two sorted lists that are permutations of each other coincide when
the order is antisymmetric on the elements involved. -/
theorem eq_of_perm_of_pairwise {α : Type} {r : α → α → Prop} :
    ∀ {l₁ l₂ : List α}, l₁.Perm l₂ → l₁.Pairwise r → l₂.Pairwise r →
      (∀ a ∈ l₁, ∀ b ∈ l₁, r a b → r b a → a = b) → l₁ = l₂ := by
  intro l₁
  induction l₁ with
  | nil =>
    intro l₂ hp _ _ _
    exact (List.Perm.eq_nil hp.symm).symm
  | cons a t ih =>
    intro l₂ hp hs₁ hs₂ anti
    cases l₂ with
    | nil => exact absurd hp.eq_nil (by simp)
    | cons b t₂ =>
      have hb₁ : b ∈ a :: t := hp.symm.mem_iff.mp (List.mem_cons_self b t₂)
      have ha₂ : a ∈ b :: t₂ := hp.mem_iff.mp (List.mem_cons_self a t)
      have hab : a = b := by
        rcases List.mem_cons.mp hb₁ with h | hbt
        · exact h.symm
        · rcases List.mem_cons.mp ha₂ with h | hat
          · exact h
          · have rab : r a b := (List.pairwise_cons.mp hs₁).1 b hbt
            have rba : r b a := (List.pairwise_cons.mp hs₂).1 a hat
            exact anti a (List.mem_cons_self a t) b (List.mem_cons_of_mem a hbt) rab rba
      subst hab
      have ht : t.Perm t₂ := hp.cons_inv
      have anti' : ∀ x ∈ t, ∀ y ∈ t, r x y → r y x → x = y := fun x hx y hy =>
        anti x (List.mem_cons_of_mem a hx) y (List.mem_cons_of_mem a hy)
      rw [ih ht (List.pairwise_cons.mp hs₁).2 (List.pairwise_cons.mp hs₂).2 anti']

/-- Two entries of an index-tagged list sharing the index coincide. -/
theorem enum_fst_inj {α : Type} {l : List α} {a b : Nat × α}
    (ha : a ∈ l.enum) (hb : b ∈ l.enum) (h : a.1 = b.1) : a = b := by
  rw [List.mem_enum_iff_getElem?] at ha hb
  rcases a with ⟨i, x⟩
  rcases b with ⟨j, y⟩
  simp only at ha hb h
  subst h
  rw [ha] at hb
  cases hb
  rfl

/-- The page of a listing whose offset is zero and whose limit covers
every matching row is the whole sorted match set. -/
theorem listBooks_books_page1 (store : List Book) (p : BookListParams)
    (hpage : p.page = 1)
    (hfit : (store.filter (bookMatches p)).length ≤ p.pageSize.toNat) :
    (listBooks store p).books =
      ((store.filter (bookMatches p)).enum.insertionSort (bookRel p.sort)).map
        Prod.snd := by
  show ((((store.filter (bookMatches p)).enum.insertionSort (bookRel p.sort)).map
      Prod.snd).drop ((p.page - 1) * p.pageSize).toNat).take p.pageSize.toNat = _
  rw [hpage]
  simp only [sub_self, zero_mul, Int.toNat_zero, List.drop_zero]
  exact List.take_of_length_le (by
    rw [List.length_map, List.length_insertionSort, List.enum_length]
    exact hfit)

/-! ### C3 -/

/-- Identifier of the first seeded author of the spec scenarios. -/
def authorA : UUIDv := List.replicate 15 0 ++ [1]

/-- Identifier of the second seeded author of the spec scenarios. -/
def authorB : UUIDv := List.replicate 15 0 ++ [2]

/-- The three seeded books of the spec scenarios: Clean Code and Clean
Architecture by the first author, Domain-Driven Design by the second,
created an hour apart. -/
def seedStore : List Book :=
  [⟨List.replicate 15 0 ++ [3], "Clean Code", authorA, "", none, 1⟩,
   ⟨List.replicate 15 0 ++ [4], "Clean Architecture", authorA, "", none, 2⟩,
   ⟨List.replicate 15 0 ++ [5], "Domain-Driven Design", authorB, "", none, 3⟩]

/-- The author-filtered single-row page of the spec scenario. -/
def c3pEx : BookListParams :=
  ⟨1, 1, "created_at_desc", "", some authorB, none, none⟩

/-- The store of the spec scenarios, shared by the concrete
instantiations. -/
def c3storeEx : List Book := seedStore

/-- A matching row satisfies the author filter when one is set. -/
theorem bookMatches_author {p : BookListParams} {b : Book} {id : UUIDv}
    (hm : bookMatches p b = true) (hid : p.authorID = some id) :
    b.authorID = id := by
  unfold bookMatches at hm
  rw [hid] at hm
  simp only [Bool.and_eq_true, decide_eq_true_eq] at hm
  exact hm.1.1.2

/-- C3: for every validated descriptor the List operation returns at
most pageSize rows, its total counts exactly the rows matching the
filter predicate before offset and limit are applied, every returned
row matches the predicate, and under an author filter every returned
row carries that author with the total covering only matching rows. -/
theorem c3_listInvariants (store : List Book) (p : BookListParams)
    (hpage : 1 ≤ p.page) (hsize : 1 ≤ p.pageSize) :
    (listBooks store p).books.length ≤ p.pageSize.toNat ∧
    (listBooks store p).total = ((store.filter (bookMatches p)).length : Int) ∧
    (∀ b ∈ (listBooks store p).books, bookMatches p b = true) ∧
    (∀ id, p.authorID = some id →
      ∀ b ∈ (listBooks store p).books, b.authorID = id) := by
  have hexp : (listBooks store p).books =
      ((((store.filter (bookMatches p)).enum.insertionSort (bookRel p.sort)).map
        Prod.snd).drop ((p.page - 1) * p.pageSize).toNat).take p.pageSize.toNat := rfl
  have hmem : ∀ b ∈ (listBooks store p).books, bookMatches p b = true := by
    intro b hb
    rw [hexp] at hb
    have hsub : (((((store.filter (bookMatches p)).enum.insertionSort
        (bookRel p.sort)).map Prod.snd).drop
          ((p.page - 1) * p.pageSize).toNat).take p.pageSize.toNat).Sublist
        (((store.filter (bookMatches p)).enum.insertionSort (bookRel p.sort)).map
          Prod.snd) :=
      (List.take_sublist _ _).trans (List.drop_sublist _ _)
    have hS : b ∈ ((store.filter (bookMatches p)).enum.insertionSort
        (bookRel p.sort)).map Prod.snd := hsub.subset hb
    have hperm : (((store.filter (bookMatches p)).enum.insertionSort
        (bookRel p.sort)).map Prod.snd).Perm (store.filter (bookMatches p)) := by
      have h1 := (List.perm_insertionSort (bookRel p.sort)
        (store.filter (bookMatches p)).enum).map Prod.snd
      rwa [List.enum_map_snd] at h1
    have hF : b ∈ store.filter (bookMatches p) := hperm.mem_iff.mp hS
    exact (List.mem_filter.mp hF).2
  refine ⟨?_, rfl, hmem, fun id hid b hb => bookMatches_author (hmem b hb) hid⟩
  rw [hexp]
  exact List.length_take_le _ _

/-- C3 witness: the concrete author-filtered query of the spec scenario
(one matching book of three, page 1 of size 1) instantiates the
invariants. -/
theorem c3_listInvariants_witness :
    (1 : Int) ≤ c3pEx.page ∧
    (listBooks c3storeEx c3pEx).books.length ≤ c3pEx.pageSize.toNat ∧
    (listBooks c3storeEx c3pEx).total =
      ((c3storeEx.filter (bookMatches c3pEx)).length : Int) ∧
    (∀ b ∈ (listBooks c3storeEx c3pEx).books, bookMatches c3pEx b = true) ∧
    (∀ id, c3pEx.authorID = some id →
      ∀ b ∈ (listBooks c3storeEx c3pEx).books, b.authorID = id) := by
  have h := c3_listInvariants c3storeEx c3pEx (by decide) (by decide)
  exact ⟨by decide, h.1, h.2.1, h.2.2.1, h.2.2.2⟩

/-! ### C4 -/

/-- The title_asc search page of the spec scenario: free-text query
Clean over the seeded store. -/
def c4pEx : BookListParams :=
  ⟨1, 10, "title_asc", "Clean", none, none, none⟩

/-- The descending title comparison is the exact flip of the ascending
one. -/
theorem bookLE_title_flip (a b : Nat × Book) :
    bookLE "title_desc" a b = bookLE "title_asc" b a := rfl

/-- C4: under sort=title_asc the returned rows are in non-decreasing
lexical title order (on every page), and when the page covers the whole
match set (page 1, page size at least the number of matching rows) the
same query under sort=title_desc returns exactly the reverse of the
title_asc result set. -/
theorem c4_titleOrder (store : List Book) (p : BookListParams)
    (hsort : p.sort = "title_asc") :
    List.Pairwise (fun a b : Book => bookTitleKey a ≤ bookTitleKey b)
      (listBooks store p).books ∧
    (p.page = 1 → (store.filter (bookMatches p)).length ≤ p.pageSize.toNat →
      (listBooks store { p with sort := "title_desc" }).books =
        (listBooks store p).books.reverse) := by
  letI : IsTotal (Nat × Book) (bookRel "title_asc") := bookRel_isTotal _
  letI : IsTrans (Nat × Book) (bookRel "title_asc") := bookRel_isTrans _
  letI : IsTotal (Nat × Book) (bookRel "title_desc") := bookRel_isTotal _
  letI : IsTrans (Nat × Book) (bookRel "title_desc") := bookRel_isTrans _
  constructor
  · have hexp : (listBooks store p).books =
        ((((store.filter (bookMatches p)).enum.insertionSort (bookRel p.sort)).map
          Prod.snd).drop ((p.page - 1) * p.pageSize).toNat).take p.pageSize.toNat := rfl
    rw [hexp, hsort]
    have hs : List.Pairwise (bookRel "title_asc")
        ((store.filter (bookMatches p)).enum.insertionSort (bookRel "title_asc")) :=
      List.sorted_insertionSort _ _
    have hs2 : List.Pairwise (fun a b : Book => bookTitleKey a ≤ bookTitleKey b)
        (((store.filter (bookMatches p)).enum.insertionSort
          (bookRel "title_asc")).map Prod.snd) := by
      refine List.Pairwise.map _ ?_ hs
      intro a b hab
      have h : keyIdxLE bookTitleKey a b = true := hab
      simp only [keyIdxLE, Bool.or_eq_true, Bool.and_eq_true, decide_eq_true_eq] at h
      rcases h with h | ⟨h, -⟩
      · exact le_of_lt h
      · exact le_of_eq h
    exact List.Pairwise.sublist
      ((List.take_sublist _ _).trans (List.drop_sublist _ _)) hs2
  · intro hpage hfit
    have hDsorted : List.Pairwise (bookRel "title_desc")
        ((store.filter (bookMatches p)).enum.insertionSort (bookRel "title_desc")) :=
      List.sorted_insertionSort _ _
    have hAsorted : List.Pairwise (bookRel "title_asc")
        ((store.filter (bookMatches p)).enum.insertionSort (bookRel "title_asc")) :=
      List.sorted_insertionSort _ _
    have hArev : List.Pairwise (bookRel "title_desc")
        ((store.filter (bookMatches p)).enum.insertionSort
          (bookRel "title_asc")).reverse := by
      rw [List.pairwise_reverse]
      exact hAsorted.imp (fun {a b} h => h)
    have hperm : ((store.filter (bookMatches p)).enum.insertionSort
        (bookRel "title_desc")).Perm
        ((store.filter (bookMatches p)).enum.insertionSort
          (bookRel "title_asc")).reverse :=
      ((List.perm_insertionSort _ _).trans
        (List.perm_insertionSort _ _).symm).trans (List.reverse_perm _).symm
    have anti : ∀ x ∈ (store.filter (bookMatches p)).enum.insertionSort
          (bookRel "title_desc"),
        ∀ y ∈ (store.filter (bookMatches p)).enum.insertionSort
          (bookRel "title_desc"),
        bookRel "title_desc" x y → bookRel "title_desc" y x → x = y := by
      intro x hx y hy hxy hyx
      refine enum_fst_inj ((List.perm_insertionSort _ _).subset hx)
        ((List.perm_insertionSort _ _).subset hy) ?_
      exact keyIdxLE_antisymm bookTitleKey x y hyx hxy
    have hDA : (store.filter (bookMatches p)).enum.insertionSort
          (bookRel "title_desc") =
        ((store.filter (bookMatches p)).enum.insertionSort
          (bookRel "title_asc")).reverse :=
      eq_of_perm_of_pairwise hperm hDsorted hArev anti
    have hbooksD := listBooks_books_page1 store { p with sort := "title_desc" }
      hpage hfit
    have hbooksA := listBooks_books_page1 store p hpage hfit
    rw [hbooksD, hbooksA, hsort]
    show ((store.filter (bookMatches p)).enum.insertionSort
        (bookRel "title_desc")).map Prod.snd = _
    rw [hDA, List.map_reverse]

/-- C4 witness: on the seeded three-book store with the free-text query
Clean and sort title_asc, the result page is in non-decreasing title
order and the title_desc page is its exact reverse. -/
theorem c4_titleOrder_witness :
    List.Pairwise (fun a b : Book => bookTitleKey a ≤ bookTitleKey b)
      (listBooks c3storeEx c4pEx).books ∧
    (listBooks c3storeEx { c4pEx with sort := "title_desc" }).books =
      (listBooks c3storeEx c4pEx).books.reverse := by
  have h := c4_titleOrder c3storeEx c4pEx rfl
  exact ⟨h.1, h.2 rfl (by decide)⟩

end Shelfshare
